import Mathlib

/-!
Verification of the ProcessIQ workflow engine, workflow debugger and
scheduler daemon against their natural-language specification.

The Python modules `processiq/core/workflow_engine.py`,
`processiq/core/workflow_debugger.py` and `processiq/core/scheduler_daemon.py`
are shallowly embedded below: dictionaries become association lists, Python
sets become `Finset String`, `datetime` values become `Int` (seconds),
exceptions become explicit error values, and the imperative methods become
pure state-transformer functions.  Node handlers perform I/O in the source,
so the executor is parameterised over an abstract handler map, exactly as the
engine itself treats `self.node_handlers`.
-/

namespace ProcessIQ

/-! ### Python string primitives

The debugger and scheduler use a handful of `str` operations
(`replace`, `split(sep, 1)`, `strip`, `startswith`, slicing, `int(...)`).
The embeddings below implement those operations on `List Char` by structural
recursion so that they evaluate inside the kernel. -/

/-- Bool test that `pre` is an initial segment of `s` (Python `startswith`). -/
def listStartsWith : List Char → List Char → Bool
  | [], _ => true
  | _ :: _, [] => false
  | p :: ps, c :: cs => p == c && listStartsWith ps cs

/-- Python `str.strip()`: remove leading and trailing whitespace. -/
def pyStrip (l : List Char) : List Char :=
  ((l.dropWhile Char.isWhitespace).reverse.dropWhile Char.isWhitespace).reverse

/-- Split at the first occurrence of `sep` (Python `s.split(sep, 1)` when the
separator occurs; `none` models `sep not in s`).  Only called with a non-empty
separator, as in the source. -/
def splitOnce (sep : List Char) : List Char → Option (List Char × List Char)
  | [] => none
  | c :: rest =>
    if listStartsWith sep (c :: rest) then some ([], rest.drop (sep.length - 1))
    else (splitOnce sep rest).map (fun p => (c :: p.1, p.2))

/-- Fueled core of Python `str.replace`: replaces every occurrence of `old`
by `new`, scanning left to right.  The fuel is the length of the subject
string, which suffices because `old` is non-empty at every call site (the
substituted pattern always contains at least three characters). -/
def pyReplaceFuel (old new : List Char) : Nat → List Char → List Char
  | _, [] => []
  | 0, s => s
  | fuel + 1, c :: rest =>
    if !old.isEmpty && listStartsWith old (c :: rest) then
      new ++ pyReplaceFuel old new fuel (rest.drop (old.length - 1))
    else c :: pyReplaceFuel old new fuel rest

/-- Python `s.replace(old, new)` on `String`. -/
def pyReplace (s old new : String) : String :=
  ⟨pyReplaceFuel old.data new.data s.data.length s.data⟩

/-- Digits-only decimal parse; `none` when empty or a non-digit occurs. -/
def digitsToNat? (l : List Char) : Option Nat :=
  if l = [] then none
  else if l.all Char.isDigit then
    some (l.foldl (fun acc c => acc * 10 + (c.toNat - 48)) 0)
  else none

/-- Python `int(s)` on an already-stripped string: optional sign then digits;
`none` models the `ValueError` exception. -/
def parsePyInt : List Char → Option Int
  | '-' :: rest => (digitsToNat? rest).map (fun n => -(n : Int))
  | '+' :: rest => (digitsToNat? rest).map (fun n => (n : Int))
  | l => (digitsToNat? l).map (fun n => (n : Int))

/-- Python `%` on integers is floor modulo (result takes the divisor's sign),
which is `Int.fmod`. -/
def pymod (a b : Int) : Int := Int.fmod a b

/-! ### Association-list helpers (Python `dict`) -/

/-- Apply `f` to the value stored under key `k` (Python `d[k] = f(d[k])` on an
existing key; a no-op when the key is absent). -/
def setVal {α : Type} : List (String × α) → String → (α → α) → List (String × α)
  | [], _, _ => []
  | p :: rest, k, f =>
    if p.1 == k then (p.1, f p.2) :: setVal rest k f
    else p :: setVal rest k f

/-- Python `d[k] = v`: overwrite in place when present, else append. -/
def dictSet {α : Type} (m : List (String × α)) (k : String) (v : α) :
    List (String × α) :=
  if m.any (fun p => p.1 == k) then
    m.map (fun p => if p.1 == k then (p.1, v) else p)
  else m ++ [(k, v)]

/-- Python `d.update(new)`: fold `dictSet` over the new entries. -/
def dictUpdate (m newEntries : List (String × String)) :
    List (String × String) :=
  newEntries.foldl (fun acc p => dictSet acc p.1 p.2) m

theorem lookup_setVal_self {α : Type} (m : List (String × α)) (k : String)
    (f : α → α) : (setVal m k f).lookup k = (m.lookup k).map f := by
  induction m with
  | nil => rfl
  | cons p rest ih =>
    obtain ⟨a, b⟩ := p
    by_cases h : a = k
    · subst h
      simp [setVal, List.lookup]
    · have h1 : (a == k) = false := beq_false_of_ne h
      have h2 : (k == a) = false := beq_false_of_ne (Ne.symm h)
      simp only [setVal, h1, Bool.false_eq_true, if_false, List.lookup, h2]
      exact ih

theorem lookup_setVal_ne {α : Type} (m : List (String × α)) (k k' : String)
    (f : α → α) (h : k' ≠ k) :
    (setVal m k f).lookup k' = m.lookup k' := by
  induction m with
  | nil => rfl
  | cons p rest ih =>
    obtain ⟨a, b⟩ := p
    by_cases hp : a = k
    · subst hp
      have h1 : (k' == a) = false := beq_false_of_ne h
      simp [setVal, List.lookup, h1, ih]
    · have h1 : (a == k) = false := beq_false_of_ne hp
      simp only [setVal, h1, Bool.false_eq_true, if_false, List.lookup]
      cases k' == a with
      | true => rfl
      | false => exact ih

theorem lookup_mem {α : Type} {m : List (String × α)} {k : String} {v : α}
    (h : m.lookup k = some v) : (k, v) ∈ m := by
  induction m with
  | nil => simp [List.lookup] at h
  | cons p rest ih =>
    obtain ⟨a, b⟩ := p
    rw [List.lookup] at h
    cases hk : (k == a) with
    | true =>
      rw [hk] at h
      have hv : b = v := by injection h
      have hkp : k = a := by simpa [beq_iff_eq] using hk
      subst hv
      subst hkp
      exact List.mem_cons_self _ _
    | false =>
      rw [hk] at h
      exact List.mem_cons_of_mem _ (ih h)

/-! ### Workflow engine (`processiq/core/workflow_engine.py`)

`WorkflowStateManager` keeps executions and node statuses in dictionaries;
node handlers run external automation, so the executor below is parameterised
over the handler map exactly as the engine holds `self.node_handlers`. -/

/-- Node execution status (`NodeStatus` enum). -/
inductive NodeStatus
  | pending
  | running
  | completed
  | failed
  | skipped
deriving DecidableEq

/-- Workflow execution status (`WorkflowStatus` enum). -/
inductive WorkflowStatus
  | pending
  | running
  | completed
  | failed
  | cancelled
  | paused
deriving DecidableEq

/-- The mutable per-execution record `WorkflowExecutionState`. -/
structure WorkflowExecutionState where
  status : WorkflowStatus
  started_at : Int
  completed_at : Option Int := none
  variables' : List (String × String) := []
  current_nodes : Finset String := ∅
  completed_nodes : Finset String := ∅
  failed_nodes : Finset String := ∅
  node_results : List (String × String) := []
deriving DecidableEq

/-- The set-tracking part of `WorkflowStateManager.update_node_status`
applied to one execution state: `running` inserts into `current_nodes` and
discards from the other two sets, `completed` and `failed` symmetrically;
`pending`/`skipped` leave the sets untouched. -/
def set_node_status (st : WorkflowExecutionState) (node_id : String)
    (status : NodeStatus) : WorkflowExecutionState :=
  match status with
  | .running =>
    { st with current_nodes := insert node_id st.current_nodes,
              completed_nodes := st.completed_nodes.erase node_id,
              failed_nodes := st.failed_nodes.erase node_id }
  | .completed =>
    { st with current_nodes := st.current_nodes.erase node_id,
              completed_nodes := insert node_id st.completed_nodes,
              failed_nodes := st.failed_nodes.erase node_id }
  | .failed =>
    { st with current_nodes := st.current_nodes.erase node_id,
              failed_nodes := insert node_id st.failed_nodes,
              completed_nodes := st.completed_nodes.erase node_id }
  | _ => st

/-- `WorkflowStateManager.update_execution_status` applied to one execution
state: always set `status`; stamp `completed_at` exactly for the terminal
statuses `completed | failed | cancelled`. -/
def set_execution_status (now : Int) (st : WorkflowExecutionState)
    (status : WorkflowStatus) : WorkflowExecutionState :=
  let st1 := { st with status := status }
  if status = .completed ∨ status = .failed ∨ status = .cancelled then
    { st1 with completed_at := some now }
  else st1

/-- `WorkflowStateManager.set_node_result` applied to one execution state. -/
def set_node_result (st : WorkflowExecutionState) (node_id result : String) :
    WorkflowExecutionState :=
  { st with node_results := dictSet st.node_results node_id result }

/-- The in-memory stores of `WorkflowStateManager`. -/
structure WorkflowStateManager where
  active_executions : List (String × WorkflowExecutionState)
  node_statuses : List (String × List (String × NodeStatus))

/-- `WorkflowStateManager.update_node_status(execution_id, node_id, status)`:
records the node status unconditionally and updates the execution state's
three node sets when the execution exists. -/
def update_node_status (mgr : WorkflowStateManager)
    (execution_id node_id : String) (status : NodeStatus) :
    WorkflowStateManager :=
  let ns0 :=
    if (mgr.node_statuses.lookup execution_id).isSome then mgr.node_statuses
    else mgr.node_statuses ++ [(execution_id, [])]
  { mgr with
    node_statuses := setVal ns0 execution_id (fun d => dictSet d node_id status),
    active_executions := setVal mgr.active_executions execution_id
      (fun st => set_node_status st node_id status) }

/-- `WorkflowStateManager.update_execution_status(execution_id, status)`:
a no-op when the execution id is unknown. -/
def update_execution_status (mgr : WorkflowStateManager) (now : Int)
    (execution_id : String) (status : WorkflowStatus) : WorkflowStateManager :=
  if (mgr.active_executions.lookup execution_id).isSome then
    { mgr with
      active_executions := setVal mgr.active_executions execution_id
        (fun st => set_execution_status now st status) }
  else mgr

/-- A workflow node as consumed by the executor: its `type` string and the
outgoing `connections` adjacency list. -/
structure NodeConfig where
  type : String
  connections : List String := []
deriving DecidableEq

/-- Abstract behaviour of one node handler: called with the node id and its
config, it either returns a result or raises (the handlers themselves do
browser/file/database I/O and are outside the engine's control flow). -/
def HandlerFn : Type := String → NodeConfig → Except String String

/-- The executor's node-handler map `self.node_handlers`, keyed by node type;
`none` models a type absent from the dictionary. -/
def Handlers : Type := String → Option HandlerFn

/-- The exact key set of `self.node_handlers` built in
`WorkflowExecutor.__init__`. -/
def node_handler_types : List String :=
  ["start", "end", "browser_open", "browser_navigate", "browser_extract",
   "browser_close", "excel_read", "excel_write", "email_send", "file_scan",
   "file_mkdir", "file_move", "file_write", "http_request", "python_script",
   "condition", "loop", "loop_end", "template_render", "log",
   "database_connect", "database_query", "database_execute",
   "database_bulk_insert", "database_close"]

/-- The engine's handler map: a registered implementation for each key of
`node_handler_types` and nothing for any other type. -/
def engineHandlers (impl : String → HandlerFn) : Handlers :=
  fun t => if node_handler_types.contains t then some (impl t) else none

/-- `WorkflowExecutor._execute_single_node`: mark the node running, look the
handler up by node type, then either store the result and mark the node
completed, or mark it failed and re-raise the wrapped error.  A missing
handler raises `Unknown node type`, caught by the same `except` block. -/
def execute_single_node (handlers : Handlers) (node_id : String)
    (cfg : NodeConfig) (st : WorkflowExecutionState) :
    WorkflowExecutionState × Option String :=
  let st1 := set_node_status st node_id .running
  match handlers cfg.type with
  | some h =>
    match h node_id cfg with
    | .ok result =>
      let st2 := set_node_result st1 node_id result
      (set_node_status st2 node_id .completed, none)
    | .error e =>
      (set_node_status st1 node_id .failed,
       some ("Node " ++ node_id ++ " failed: " ++ e))
  | none =>
    (set_node_status st1 node_id .failed,
     some ("Node " ++ node_id ++ " failed: Unknown node type: " ++ cfg.type))

/-- `WorkflowExecutor._execute_node_chain`: iterative traversal with a FIFO
`node_queue` and a `visited` set; a visited or unknown node id is skipped,
otherwise the node executes and its connections are appended.  The source
loop has no fuel; the `Nat` argument only bounds the recursion depth of this
embedding and `none` means the fuel ran out before the loop finished.
Returns the final state, the list of executed node ids in order, and the
raised error when a node failed (which aborts the loop). -/
def execute_node_chain_aux (handlers : Handlers)
    (nodes : List (String × NodeConfig)) :
    Nat → List String → Finset String → WorkflowExecutionState →
    Option (WorkflowExecutionState × List String × Option String)
  | _, [], _, st => some (st, [], none)
  | 0, _ :: _, _, _ => none
  | fuel + 1, n :: queue, visited, st =>
    if n ∈ visited then execute_node_chain_aux handlers nodes fuel queue visited st
    else
      match nodes.lookup n with
      | none =>
        execute_node_chain_aux handlers nodes fuel queue (insert n visited) st
      | some cfg =>
        match execute_single_node handlers n cfg st with
        | (st1, some e) => some (st1, [n], some e)
        | (st1, none) =>
          match execute_node_chain_aux handlers nodes fuel
              (queue ++ cfg.connections) (insert n visited) st1 with
          | none => none
          | some (st2, ex, err) => some (st2, n :: ex, err)

/-- `WorkflowExecutor._execute_node_chain(start_node, ...)`: the traversal
starts from a singleton queue and an empty `visited` set. -/
def execute_node_chain (handlers : Handlers)
    (nodes : List (String × NodeConfig)) (fuel : Nat) (start : String)
    (st : WorkflowExecutionState) :
    Option (WorkflowExecutionState × List String × Option String) :=
  execute_node_chain_aux handlers nodes fuel [start] ∅ st

/-- The `for start_node in start_nodes` loop of
`WorkflowExecutor._execute_workflow_nodes`: one chain per start node, each
with a fresh `visited` set; a raised error aborts the remaining chains.
Returns the executed node ids grouped per chain. -/
def execute_workflow_nodes_aux (handlers : Handlers)
    (nodes : List (String × NodeConfig)) (fuel : Nat) :
    List String → WorkflowExecutionState →
    Option (WorkflowExecutionState × List (List String) × Option String)
  | [], st => some (st, [], none)
  | s :: rest, st =>
    match execute_node_chain handlers nodes fuel s st with
    | none => none
    | some (st1, ex, some e) => some (st1, [ex], some e)
    | some (st1, ex, none) =>
      match execute_workflow_nodes_aux handlers nodes fuel rest st1 with
      | none => none
      | some (st2, chains, err) => some (st2, ex :: chains, err)

/-- Start-node discovery in `_execute_workflow_nodes`: every node whose
`type` is `start`, in dictionary order. -/
def start_nodes (nodes : List (String × NodeConfig)) : List String :=
  (nodes.filter (fun p => p.2.type == "start")).map (fun p => p.1)

/-- The state created by `WorkflowStateManager.create_execution`. -/
def initial_execution_state (now : Int) : WorkflowExecutionState :=
  { status := .pending, started_at := now }

/-- `WorkflowExecutor.execute_workflow` restricted to one execution: create
the pending state, set it running, raise when no start node exists, run the
chains, then mark the execution completed, or failed with the re-raised
`ProcessIQError` when a node raised.  The third component is the exception
surfaced to the caller (`none` when the run returned normally). -/
def execute_workflow (handlers : Handlers)
    (nodes : List (String × NodeConfig)) (fuel : Nat) (now : Int) :
    Option (WorkflowExecutionState × List (List String) × Option String) :=
  let st0 := initial_execution_state now
  let st1 := set_execution_status now st0 .running
  match start_nodes nodes with
  | [] =>
    some (set_execution_status now st1 .failed, [],
      some "Workflow execution failed: No start nodes found in workflow")
  | s :: rest =>
    match execute_workflow_nodes_aux handlers nodes fuel (s :: rest) st1 with
    | none => none
    | some (st2, chains, some e) =>
      some (set_execution_status now st2 .failed, chains,
        some ("Workflow execution failed: " ++ e))
    | some (st2, chains, none) =>
      some (set_execution_status now st2 .completed, chains, none)

/-- The §3 invariant: each node id is in at most one of the three node sets
(expressed as empty pairwise intersections, which is decidable). -/
def exclusiveSets (st : WorkflowExecutionState) : Prop :=
  st.current_nodes ∩ st.completed_nodes = ∅ ∧
  st.current_nodes ∩ st.failed_nodes = ∅ ∧
  st.completed_nodes ∩ st.failed_nodes = ∅

instance (st : WorkflowExecutionState) : Decidable (exclusiveSets st) := by
  unfold exclusiveSets
  infer_instance

/-! ### Workflow debugger (`processiq/core/workflow_debugger.py`) -/

/-- The `BreakpointType` enum. -/
inductive BreakpointType
  | node_start
  | node_end
  | node_error
  | condition
  | variable_change
deriving DecidableEq

/-- The `DebuggerState` enum. -/
inductive DebuggerState
  | idle
  | running
  | paused
  | stepped
  | stopped
deriving DecidableEq

/-- The `Breakpoint` dataclass.  Variable values are carried as their `str()`
rendering, which is all the condition evaluator ever sees. -/
structure Breakpoint where
  breakpoint_type : BreakpointType
  node_id : Option String := none
  condition : Option String := none
  variable_name : Option String := none
  hit_condition : Option String := none
  enabled : Bool := true
  hit_count : Nat := 0
deriving DecidableEq

/-- The `StackFrame` dataclass. -/
structure StackFrame where
  node_id : String
  node_name : String
  node_type : String
  variables' : List (String × String)
  timestamp : Int
deriving DecidableEq

/-- The `DebugSession` dataclass (the `variables` field is `variables'` as
`variables` is reserved in Lean). -/
structure DebugSession where
  session_id : String
  execution_id : String
  workflow_id : String
  state : DebuggerState
  current_node_id : Option String := none
  variables' : List (String × String) := []
  watch_expressions : List (String × String) := []
  breakpoints : List (String × Breakpoint) := []
  stack_frames : List StackFrame := []
  started_at : Int
  paused_at : Option Int := none
deriving DecidableEq

/-- Python truthiness of an `Optional[str]`: `None` and `""` are falsy. -/
def truthyStr : Option String → Bool
  | none => false
  | some s => !(s == "")

/-- The substitution pass of `WorkflowDebugger._evaluate_condition`:
`condition.replace(f"$\x7b{var_name}\x7d", str(var_value))` folded over the
variables dict in order. -/
def substitute_variables (cond : String) (vars : List (String × String)) :
    String :=
  vars.foldl (fun c p => pyReplace c ("$\x7b" ++ p.1 ++ "\x7d") p.2) cond

/-- `WorkflowDebugger._evaluate_condition`: after substitution, split once on
`==` (or else `!=`) and compare the stripped sides; any other shape is
`False`. -/
def evaluate_condition (condition : String)
    (vars : List (String × String)) : Bool :=
  let c := (substitute_variables condition vars).data
  match splitOnce ['=', '='] c with
  | some (l, r) => pyStrip l == pyStrip r
  | none =>
    match splitOnce ['!', '='] c with
    | some (l, r) => !(pyStrip l == pyStrip r)
    | none => false

/-- `WorkflowDebugger._evaluate_hit_condition`: `>=N` threshold, `==N` exact,
`%N` modulo, anything else vacuously `True`.  `none` models the exception
from `int(...)` on an unparsable number (or Python's `ZeroDivisionError`
for `%0`). -/
def evaluate_hit_condition (hit_condition : String) (hit_count : Nat) :
    Option Bool :=
  let l := hit_condition.data
  if listStartsWith ['>', '='] l then
    (parsePyInt (pyStrip (l.drop 2))).map (fun t => decide (t ≤ (hit_count : Int)))
  else if listStartsWith ['=', '='] l then
    (parsePyInt (pyStrip (l.drop 2))).map (fun t => decide ((hit_count : Int) = t))
  else if listStartsWith ['%'] l then
    match parsePyInt (pyStrip (l.drop 1)) with
    | none => none
    | some m =>
      if m = 0 then none
      else some (pymod (hit_count : Int) m == 0)
  else some true

/-- The per-breakpoint `should_break` computation inside
`WorkflowDebugger.check_breakpoints`, translated statement by statement:
first the type/node test, then the optional condition overwrite, then the
`variable_change` clause which can only turn the flag on. -/
def should_break (bp : Breakpoint) (breakpoint_type : BreakpointType)
    (node_id : String) (vars : List (String × String)) : Bool :=
  let sb1 : Bool :=
    bp.breakpoint_type == breakpoint_type &&
      (bp.node_id.isNone || bp.node_id == some node_id)
  let sb2 : Bool :=
    if sb1 && truthyStr bp.condition then
      evaluate_condition (bp.condition.getD "") vars
    else sb1
  let sb3 : Bool :=
    if bp.breakpoint_type == BreakpointType.variable_change &&
        truthyStr bp.variable_name then
      if vars.any (fun p => p.1 == bp.variable_name.getD "") then true else sb2
    else sb2
  sb3

/-- The stack frame appended when a breakpoint pauses the session. -/
def pauseFrame (now : Int) (node_id : String)
    (vars : List (String × String)) : StackFrame :=
  { node_id := node_id, node_name := "Node " ++ node_id,
    node_type := "unknown", variables' := vars, timestamp := now }

/-- The `for bp_id, breakpoint in session.breakpoints.items()` loop of
`check_breakpoints`: `acc` holds the already-visited entries in reverse.
On a match the hit count is incremented in place; an unsatisfied
`hit_condition` continues the loop, a satisfied (or absent) one pauses the
session and returns `True`.  The `none` outcome models the exception from an
unparsable hit condition, with the mutations made so far kept. -/
def check_breakpoints_loop (now : Int) (node_id : String)
    (breakpoint_type : BreakpointType) (vars : List (String × String)) :
    List (String × Breakpoint) → DebugSession → List (String × Breakpoint) →
    DebugSession × Option Bool
  | [], sess, acc => ({ sess with breakpoints := acc.reverse }, some false)
  | (bp_id, bp) :: rest, sess, acc =>
    if !bp.enabled then
      check_breakpoints_loop now node_id breakpoint_type vars rest sess
        ((bp_id, bp) :: acc)
    else if should_break bp breakpoint_type node_id vars then
      let bp' := { bp with hit_count := bp.hit_count + 1 }
      let gate : Option Bool :=
        if truthyStr bp'.hit_condition then
          evaluate_hit_condition (bp'.hit_condition.getD "") bp'.hit_count
        else some true
      match gate with
      | none =>
        ({ sess with breakpoints := acc.reverse ++ (bp_id, bp') :: rest }, none)
      | some false =>
        check_breakpoints_loop now node_id breakpoint_type vars rest sess
          ((bp_id, bp') :: acc)
      | some true =>
        ({ sess with
            breakpoints := acc.reverse ++ (bp_id, bp') :: rest,
            state := .paused,
            paused_at := some now,
            stack_frames := sess.stack_frames ++ [pauseFrame now node_id vars] },
         some true)
    else
      check_breakpoints_loop now node_id breakpoint_type vars rest sess
        ((bp_id, bp) :: acc)

/-- `WorkflowDebugger.check_breakpoints` on a session that was found in
`active_sessions`: a stopped session returns `False` immediately, otherwise
the session variables and current node are updated and the breakpoint loop
runs. -/
def check_breakpoints_session (now : Int) (node_id : String)
    (breakpoint_type : BreakpointType) (vars : List (String × String))
    (sess : DebugSession) : DebugSession × Option Bool :=
  if sess.state == DebuggerState.stopped then (sess, some false)
  else
    let sess1 := { sess with
      variables' := dictUpdate sess.variables' vars,
      current_node_id := some node_id }
    check_breakpoints_loop now node_id breakpoint_type vars sess1.breakpoints
      sess1 []

/-- `WorkflowDebugger.check_breakpoints` at the `active_sessions` map level:
an unknown session id returns `False` without touching anything. -/
def check_breakpoints (sessions : List (String × DebugSession))
    (session_id : String) (now : Int) (node_id : String)
    (breakpoint_type : BreakpointType) (vars : List (String × String)) :
    List (String × DebugSession) × Option Bool :=
  match sessions.lookup session_id with
  | none => (sessions, some false)
  | some sess =>
    let r := check_breakpoints_session now node_id breakpoint_type vars sess
    (setVal sessions session_id (fun _ => r.1), r.2)

/-- `WorkflowDebugger.continue_execution`: raise the `ProcessIQError`
domain error when the session id is unknown; otherwise set the state to
`running` and clear `paused_at`. -/
def continue_execution (sessions : List (String × DebugSession))
    (session_id : String) : Except String (List (String × DebugSession)) :=
  match sessions.lookup session_id with
  | none => .error ("Debug session " ++ session_id ++ " not found")
  | some _ =>
    .ok (setVal sessions session_id
      (fun s => { s with state := .running, paused_at := none }))

/-- The session stored under `session_id` after `continue_execution`
succeeded (`none` when it raised). -/
def continue_result_lookup (sessions : List (String × DebugSession))
    (session_id : String) : Option DebugSession :=
  match continue_execution sessions session_id with
  | .ok m => m.lookup session_id
  | .error _ => none

/-! ### Scheduler daemon (`processiq/core/scheduler_daemon.py`) -/

/-- The fields of the `ScheduledWorkflow` pydantic model consulted by
`_should_execute_schedule`.  ISO date strings are abstracted as parsed
`Int` timestamps (seconds). -/
structure ScheduledWorkflow where
  id : String
  workflow_id : String := ""
  trigger_type : String
  cron_expression : Option String := none
  interval_seconds : Option Int := none
  start_date : Option Int := none
  end_date : Option Int := none
  max_runs : Option Int := none
  current_runs : Int := 0
  enabled : Bool := true
  last_run : Option Int := none
deriving DecidableEq

/-- The daemon state consulted by the due-schedule checks: the poll interval
and the `processed_schedules` dedup set, which only ever grows. -/
structure DaemonState where
  check_interval : Int := 60
  processed_schedules : Finset String := ∅
deriving DecidableEq

/-- Python truthiness of an `Optional[int]`: `None` and `0` are falsy. -/
def truthyInt : Option Int → Bool
  | none => false
  | some n => !(n == 0)

/-- The composite dedup key `f"\x7bschedule.id\x7d:\x7bprev_time.isoformat()\x7d"`. -/
def cron_key (sched : ScheduledWorkflow) (prev_time : Int) : String :=
  sched.id ++ ":" ++ toString prev_time

/-- `SchedulerDaemon._should_execute_cron`.  The croniter computation of the
most recent scheduled fire time at or before `now` is abstracted as the
function `prev_of` (timezone conversion and second truncation folded into
it); the dedup check, the window check and the key recording are translated
directly, in source order. -/
def should_execute_cron (prev_of : Int → Int) (sched : ScheduledWorkflow)
    (d : DaemonState) (now : Int) : Bool × DaemonState :=
  let prev_time := prev_of now
  let execution_key := cron_key sched prev_time
  if execution_key ∈ d.processed_schedules then (false, d)
  else
    let time_diff := now - prev_time
    if 0 ≤ time_diff ∧ time_diff ≤ d.check_interval then
      (true,
       { d with processed_schedules := insert execution_key d.processed_schedules })
    else (false, d)

/-- `SchedulerDaemon._should_execute_interval`: first run when `last_run` is
unset, otherwise due when at least `interval_seconds` have elapsed. -/
def should_execute_interval (sched : ScheduledWorkflow) (now : Int) : Bool :=
  match sched.last_run with
  | none => true
  | some lr => decide (sched.interval_seconds.getD 0 ≤ now - lr)

/-- `SchedulerDaemon._should_execute_schedule`: the max-runs guard (note the
Python truthiness of `schedule.max_runs`), then the date window, then the
trigger-type dispatch; anything else is not due. -/
def should_execute_schedule (prev_of : Int → Int) (sched : ScheduledWorkflow)
    (d : DaemonState) (now : Int) : Bool × DaemonState :=
  if truthyInt sched.max_runs &&
      decide (sched.max_runs.getD 0 ≤ sched.current_runs) then
    (false, d)
  else if (match sched.start_date with
           | some s => decide (now < s)
           | none => false) then (false, d)
  else if (match sched.end_date with
           | some e => decide (e < now)
           | none => false) then (false, d)
  else if sched.trigger_type == "cron" && truthyStr sched.cron_expression then
    should_execute_cron prev_of sched d now
  else if sched.trigger_type == "interval" && truthyInt sched.interval_seconds then
    (should_execute_interval sched now, d)
  else (false, d)

/-- A sequence of `_should_execute_cron` calls threaded through the daemon
state; each element of the result pairs the returned flag with the dedup key
of that call. -/
def run_cron_calls :
    List ((Int → Int) × ScheduledWorkflow × Int) → DaemonState →
    List (Bool × String)
  | [], _ => []
  | (p, sched, n) :: rest, d =>
    let r := should_execute_cron p sched d n
    (r.1, cron_key sched (p n)) :: run_cron_calls rest r.2

/-- How many calls in a `run_cron_calls` trace returned `True` for the dedup
key `K`. -/
def countTrueKey (K : String) (l : List (Bool × String)) : Nat :=
  (l.filter (fun x => x.1 && x.2 == K)).length

/-- Every node id the chain traversal can ever enqueue: the dictionary keys
together with every connection target. -/
def chain_universe (nodes : List (String × NodeConfig)) : Finset String :=
  (nodes.map (fun p => p.1)).toFinset ∪
    (nodes.map (fun p => p.2.connections)).flatten.toFinset

/-- An upper bound on how much one dequeue can grow the queue: the longest
connection list in the workflow. -/
def max_out_degree (nodes : List (String × NodeConfig)) : Nat :=
  (nodes.map (fun p => p.2.connections.length)).foldr max 0

/-! ### Concrete instances used by witnesses and counterexamples -/

/-- An execution state with one running and one completed node. -/
def witnessState : WorkflowExecutionState :=
  { status := WorkflowStatus.running, started_at := 0,
    current_nodes := insert "a" ∅, completed_nodes := insert "b" ∅ }

/-- A state manager holding `witnessState` under execution id `e1`. -/
def witnessMgr : WorkflowStateManager :=
  { active_executions := [("e1", witnessState)], node_statuses := [("e1", [])] }

/-- Handlers where every registered node type succeeds immediately. -/
def okHandlers : Handlers :=
  engineHandlers (fun _ => fun _ _ => Except.ok "ok")

/-- Handlers where `log` nodes raise and everything else succeeds. -/
def boomHandlers : Handlers :=
  engineHandlers (fun t =>
    fun _ _ => if t == "log" then Except.error "boom" else Except.ok "ok")

/-- A workflow whose two start nodes both connect to the shared node `c`. -/
def twoStartNodes : List (String × NodeConfig) :=
  [("s1", { type := "start", connections := ["c"] }),
   ("s2", { type := "start", connections := ["c"] }),
   ("c", { type := "log" })]

/-- A start node followed by a `log` node (which `boomHandlers` fails). -/
def startLogNodes : List (String × NodeConfig) :=
  [("s", { type := "start", connections := ["a"] }),
   ("a", { type := "log" })]

/-- The state in which the run of `startLogNodes` under `boomHandlers` ends:
`s` completed, `a` failed, the run marked failed. -/
def c8FinalState : WorkflowExecutionState :=
  { status := WorkflowStatus.failed, started_at := 0, completed_at := some 0,
    current_nodes := ∅, completed_nodes := insert "s" ∅,
    failed_nodes := insert "a" ∅, node_results := [("s", "ok")] }

/-- An enabled `variable_change` breakpoint pinned to node `A` watching `x`. -/
def varChangeBp : Breakpoint :=
  { breakpoint_type := BreakpointType.variable_change, node_id := some "A",
    variable_name := some "x" }

/-- A running session holding only `varChangeBp`. -/
def varChangeSession : DebugSession :=
  { session_id := "s", execution_id := "e", workflow_id := "w",
    state := DebuggerState.running, breakpoints := [("b1", varChangeBp)],
    started_at := 0 }

/-- An enabled `node_start` breakpoint with hit condition `%2`. -/
def mod2Bp : Breakpoint :=
  { breakpoint_type := BreakpointType.node_start, hit_condition := some "%2" }

/-- A running session holding only `mod2Bp`. -/
def mod2Session : DebugSession :=
  { session_id := "s", execution_id := "e", workflow_id := "w",
    state := DebuggerState.running, breakpoints := [("b1", mod2Bp)],
    started_at := 0 }

/-- A paused session with no breakpoints. -/
def pausedSession : DebugSession :=
  { session_id := "p1", execution_id := "e", workflow_id := "w",
    state := DebuggerState.paused, started_at := 0, paused_at := some 7 }

/-- A fresh daemon state (default 60s poll interval, empty dedup set). -/
def emptyDaemon : DaemonState := {}

/-- A cron schedule firing every five minutes. -/
def cronSched : ScheduledWorkflow :=
  { id := "sch", trigger_type := "cron",
    cron_expression := some "*/5 * * * *" }

/-- The `max_runs = 0` interval schedule of the C7 counterexample: Python
truthiness treats its `max_runs` as unset. -/
def zeroMaxRunsSched : ScheduledWorkflow :=
  { id := "z", trigger_type := "interval", interval_seconds := some 60,
    max_runs := some 0, current_runs := 0 }

/-- The spec's `max_runs = 1, current_runs = 1` cron schedule. -/
def exhaustedSched : ScheduledWorkflow :=
  { id := "m", trigger_type := "cron",
    cron_expression := some "*/5 * * * *",
    max_runs := some 1, current_runs := 1 }

/-! ### Shared lemmas -/

theorem inter_empty_iff (a b : Finset String) :
    a ∩ b = ∅ ↔ ∀ x, x ∈ a → x ∉ b := by
  constructor
  · intro h x hx1 hx2
    have hx : x ∈ a ∩ b := Finset.mem_inter.mpr ⟨hx1, hx2⟩
    rw [h] at hx
    exact absurd hx (Finset.not_mem_empty x)
  · intro h
    apply Finset.eq_empty_iff_forall_not_mem.mpr
    intro x hx
    rcases Finset.mem_inter.mp hx with ⟨ha, hb⟩
    exact h x ha hb

theorem exclusiveSets_set_node_status (st : WorkflowExecutionState)
    (node_id : String) (status : NodeStatus) (hx : exclusiveSets st) :
    exclusiveSets (set_node_status st node_id status) := by
  obtain ⟨h1, h2, h3⟩ := hx
  rw [inter_empty_iff] at h1 h2 h3
  cases status with
  | pending =>
    exact ⟨(inter_empty_iff _ _).mpr h1, (inter_empty_iff _ _).mpr h2,
      (inter_empty_iff _ _).mpr h3⟩
  | skipped =>
    exact ⟨(inter_empty_iff _ _).mpr h1, (inter_empty_iff _ _).mpr h2,
      (inter_empty_iff _ _).mpr h3⟩
  | running =>
    simp only [set_node_status, exclusiveSets]
    refine ⟨(inter_empty_iff _ _).mpr ?_, (inter_empty_iff _ _).mpr ?_,
      (inter_empty_iff _ _).mpr ?_⟩
    · intro x hx1 hx2
      rw [Finset.mem_insert] at hx1
      rw [Finset.mem_erase] at hx2
      rcases hx1 with rfl | hx1
      · exact hx2.1 rfl
      · exact h1 x hx1 hx2.2
    · intro x hx1 hx2
      rw [Finset.mem_insert] at hx1
      rw [Finset.mem_erase] at hx2
      rcases hx1 with rfl | hx1
      · exact hx2.1 rfl
      · exact h2 x hx1 hx2.2
    · intro x hx1 hx2
      rw [Finset.mem_erase] at hx1 hx2
      exact h3 x hx1.2 hx2.2
  | completed =>
    simp only [set_node_status, exclusiveSets]
    refine ⟨(inter_empty_iff _ _).mpr ?_, (inter_empty_iff _ _).mpr ?_,
      (inter_empty_iff _ _).mpr ?_⟩
    · intro x hx1 hx2
      rw [Finset.mem_erase] at hx1
      rw [Finset.mem_insert] at hx2
      rcases hx2 with rfl | hx2
      · exact hx1.1 rfl
      · exact h1 x hx1.2 hx2
    · intro x hx1 hx2
      rw [Finset.mem_erase] at hx1 hx2
      exact h2 x hx1.2 hx2.2
    · intro x hx1 hx2
      rw [Finset.mem_insert] at hx1
      rw [Finset.mem_erase] at hx2
      rcases hx1 with rfl | hx1
      · exact hx2.1 rfl
      · exact h3 x hx1 hx2.2
  | failed =>
    simp only [set_node_status, exclusiveSets]
    refine ⟨(inter_empty_iff _ _).mpr ?_, (inter_empty_iff _ _).mpr ?_,
      (inter_empty_iff _ _).mpr ?_⟩
    · intro x hx1 hx2
      rw [Finset.mem_erase] at hx1 hx2
      exact h1 x hx1.2 hx2.2
    · intro x hx1 hx2
      rw [Finset.mem_erase] at hx1
      rw [Finset.mem_insert] at hx2
      rcases hx2 with rfl | hx2
      · exact hx1.1 rfl
      · exact h2 x hx1.2 hx2
    · intro x hx1 hx2
      rw [Finset.mem_erase] at hx1
      rw [Finset.mem_insert] at hx2
      rcases hx2 with rfl | hx2
      · exact hx1.1 rfl
      · exact h3 x hx1.2 hx2

theorem exclusiveSets_foldl (updates : List (String × NodeStatus)) :
    ∀ st : WorkflowExecutionState, exclusiveSets st →
      exclusiveSets
        (updates.foldl (fun s u => set_node_status s u.1 u.2) st) := by
  induction updates with
  | nil => intro st hx; exact hx
  | cons u rest ih =>
    intro st hx
    exact ih _ (exclusiveSets_set_node_status st u.1 u.2 hx)

/-! ### The claims -/

/-- C2: after `update_node_status(execution_id, node_id, status)` on an
existing execution, the node belongs to at most one of
`current_nodes`/`completed_nodes`/`failed_nodes`: `running` evicts it from
the other two sets and places it in `current_nodes` (and symmetrically for
`completed` and `failed`), and the pairwise-disjointness invariant is
preserved by every sequence of status updates. -/
theorem C2_update_node_status_exclusive (mgr : WorkflowStateManager)
    (execution_id node_id : String) (status : NodeStatus)
    (st : WorkflowExecutionState)
    (hex : mgr.active_executions.lookup execution_id = some st)
    (hx : exclusiveSets st) :
    ((update_node_status mgr execution_id node_id status).active_executions.lookup
        execution_id = some (set_node_status st node_id status)) ∧
    exclusiveSets (set_node_status st node_id status) ∧
    (status = NodeStatus.running →
      node_id ∈ (set_node_status st node_id status).current_nodes ∧
      node_id ∉ (set_node_status st node_id status).completed_nodes ∧
      node_id ∉ (set_node_status st node_id status).failed_nodes) ∧
    (status = NodeStatus.completed →
      node_id ∈ (set_node_status st node_id status).completed_nodes ∧
      node_id ∉ (set_node_status st node_id status).current_nodes ∧
      node_id ∉ (set_node_status st node_id status).failed_nodes) ∧
    (status = NodeStatus.failed →
      node_id ∈ (set_node_status st node_id status).failed_nodes ∧
      node_id ∉ (set_node_status st node_id status).current_nodes ∧
      node_id ∉ (set_node_status st node_id status).completed_nodes) ∧
    (∀ updates : List (String × NodeStatus),
      exclusiveSets
        (updates.foldl (fun s u => set_node_status s u.1 u.2) st)) := by
  refine ⟨?_, exclusiveSets_set_node_status st node_id status hx, ?_, ?_, ?_,
      fun updates => exclusiveSets_foldl updates st hx⟩
  · unfold update_node_status
    simp only
    rw [lookup_setVal_self, hex]
    rfl
  · rintro rfl
    refine ⟨Finset.mem_insert_self _ _, Finset.not_mem_erase _ _,
      Finset.not_mem_erase _ _⟩
  · rintro rfl
    refine ⟨Finset.mem_insert_self _ _, Finset.not_mem_erase _ _,
      Finset.not_mem_erase _ _⟩
  · rintro rfl
    refine ⟨Finset.mem_insert_self _ _, Finset.not_mem_erase _ _,
      Finset.not_mem_erase _ _⟩

/-- Witness for C2 at a concrete manager holding one execution whose sets
already contain nodes, updating node `b` to `running` and then folding a
further update sequence. -/
theorem C2_update_node_status_exclusive_witness :
    (witnessMgr.active_executions.lookup "e1" = some witnessState ∧
      exclusiveSets witnessState) ∧
    ((update_node_status witnessMgr "e1" "b" NodeStatus.running).active_executions.lookup
        "e1" = some (set_node_status witnessState "b" NodeStatus.running)) ∧
    exclusiveSets
      ([("b", NodeStatus.completed), ("a", NodeStatus.failed),
        ("c", NodeStatus.skipped)].foldl
          (fun s u => set_node_status s u.1 u.2)
          witnessState) :=
  ⟨⟨by decide, by decide⟩,
   (C2_update_node_status_exclusive witnessMgr "e1" "b" NodeStatus.running
      witnessState (by decide) (by decide)).1,
   (C2_update_node_status_exclusive witnessMgr "e1" "b" NodeStatus.running
      witnessState (by decide) (by decide)).2.2.2.2.2
     [("b", NodeStatus.completed), ("a", NodeStatus.failed),
      ("c", NodeStatus.skipped)]⟩

/-- C9: for an existing execution, `update_execution_status(execution_id,
status)` stores the new status, stamps `completed_at := now` exactly when the
status is terminal (`completed`, `failed` or `cancelled`) and leaves
`completed_at` unchanged otherwise. -/
theorem C9_update_execution_status (mgr : WorkflowStateManager) (now : Int)
    (execution_id : String) (status : WorkflowStatus)
    (st : WorkflowExecutionState)
    (hex : mgr.active_executions.lookup execution_id = some st) :
    ((update_execution_status mgr now execution_id status).active_executions.lookup
        execution_id = some (set_execution_status now st status)) ∧
    (set_execution_status now st status).status = status ∧
    ((status = WorkflowStatus.completed ∨ status = WorkflowStatus.failed ∨
        status = WorkflowStatus.cancelled) →
      (set_execution_status now st status).completed_at = some now) ∧
    (¬(status = WorkflowStatus.completed ∨ status = WorkflowStatus.failed ∨
        status = WorkflowStatus.cancelled) →
      (set_execution_status now st status).completed_at = st.completed_at) := by
  refine ⟨?_, ?_, ?_, ?_⟩
  · unfold update_execution_status
    rw [if_pos (by rw [hex]; rfl)]
    simp only
    rw [lookup_setVal_self, hex]
    rfl
  · unfold set_execution_status
    split <;> rfl
  · intro ht
    unfold set_execution_status
    rw [if_pos ht]
  · intro ht
    unfold set_execution_status
    rw [if_neg ht]

/-- Witness for C9: updating the witness execution to `completed` stamps
`completed_at`, updating it to `paused` leaves it untouched. -/
theorem C9_update_execution_status_witness :
    (witnessMgr.active_executions.lookup "e1" = some witnessState) ∧
    ((update_execution_status witnessMgr 42 "e1"
        WorkflowStatus.completed).active_executions.lookup "e1" =
      some (set_execution_status 42 witnessState WorkflowStatus.completed)) ∧
    (set_execution_status 42 witnessState WorkflowStatus.completed).completed_at =
      some 42 ∧
    (set_execution_status 42 witnessState WorkflowStatus.paused).completed_at =
      witnessState.completed_at :=
  ⟨by decide,
   (C9_update_execution_status witnessMgr 42 "e1" WorkflowStatus.completed
      witnessState (by decide)).1,
   (C9_update_execution_status witnessMgr 42 "e1" WorkflowStatus.completed
      witnessState (by decide)).2.2.1 (Or.inl rfl),
   (C9_update_execution_status witnessMgr 42 "e1" WorkflowStatus.paused
      witnessState (by decide)).2.2.2 (by decide)⟩

/-- C5: `continue_execution(session_id)` on an existing paused session sets
its state to `running` and clears `paused_at`; on an unknown session id it
raises the session-not-found domain error. -/
theorem C5_continue_execution (sessions : List (String × DebugSession))
    (session_id : String) :
    (∀ sess : DebugSession, sessions.lookup session_id = some sess →
      sess.state = DebuggerState.paused →
      (continue_execution sessions session_id).isOk = true ∧
      continue_result_lookup sessions session_id =
        some { sess with state := DebuggerState.running, paused_at := none }) ∧
    (sessions.lookup session_id = none →
      continue_execution sessions session_id =
        Except.error ("Debug session " ++ session_id ++ " not found")) := by
  constructor
  · intro sess hsess _hpaused
    unfold continue_execution continue_result_lookup
    rw [hsess]
    refine ⟨rfl, ?_⟩
    simp only [continue_execution, hsess]
    rw [lookup_setVal_self, hsess]
    rfl
  · intro hnone
    unfold continue_execution
    rw [hnone]

/-- Witness for C5: continuing the concrete paused session, and the raised
error for an unknown id. -/
theorem C5_continue_execution_witness :
    ([("p1", pausedSession)].lookup "p1" = some pausedSession ∧
      pausedSession.state = DebuggerState.paused) ∧
    ((continue_execution [("p1", pausedSession)] "p1").isOk = true ∧
      continue_result_lookup [("p1", pausedSession)] "p1" =
        some { pausedSession with
                state := DebuggerState.running, paused_at := none }) ∧
    continue_execution [("p1", pausedSession)] "nope" =
      Except.error ("Debug session " ++ "nope" ++ " not found") :=
  ⟨⟨by decide, by decide⟩,
   (C5_continue_execution [("p1", pausedSession)] "p1").1 pausedSession
     (by decide) (by decide),
   (C5_continue_execution [("p1", pausedSession)] "nope").2 (by decide)⟩

/-- C7 counterexample: the schedule `zeroMaxRunsSched` has `max_runs` set
(to `0`) and `current_runs ≥ max_runs`, yet `_should_execute_schedule`
triggers it: the guard `if schedule.max_runs and ...` treats the falsy value
`0` as an unset `max_runs` and falls through to the interval trigger. -/
theorem C7_counterexample :
    zeroMaxRunsSched.max_runs = some 0 ∧
    (0 : Int) ≤ zeroMaxRunsSched.current_runs ∧
    zeroMaxRunsSched.enabled = true ∧
    (should_execute_schedule (fun t => t) zeroMaxRunsSched {} 1000).1 = true := by
  decide

/-- C7 amended: for every schedule whose `max_runs` is set to a **non-zero**
value with `current_runs ≥ max_runs`, `_should_execute_schedule` returns
`False` and leaves the daemon state untouched, regardless of the trigger
type, the cron state or the date window: the max-runs guard runs first. -/
theorem C7_max_runs_short_circuit (prev_of : Int → Int)
    (sched : ScheduledWorkflow) (d : DaemonState) (now : Int) (m : Int)
    (hm : sched.max_runs = some m) (hm0 : m ≠ 0)
    (hle : m ≤ sched.current_runs) :
    should_execute_schedule prev_of sched d now = (false, d) := by
  unfold should_execute_schedule
  rw [if_pos]
  rw [hm]
  simp only [truthyInt, Option.getD_some]
  rw [show (m == 0) = false from beq_false_of_ne hm0]
  simp [hle]

/-- Witness for C7: the spec's `max_runs = 1, current_runs = 1` schedule is
not re-triggered even though its cron trigger would otherwise match. -/
theorem C7_max_runs_short_circuit_witness :
    (exhaustedSched.max_runs = some 1 ∧ (1 : Int) ≤ exhaustedSched.current_runs ∧
      exhaustedSched.trigger_type = "cron") ∧
    should_execute_schedule (fun _ => 300) exhaustedSched {} 330 =
      (false, {}) :=
  ⟨⟨by decide, by decide, by decide⟩,
   C7_max_runs_short_circuit (fun _ => 300) exhaustedSched {} 330 1
     (by decide) (by decide) (by decide)⟩

theorem cron_processed_mono (prev_of : Int → Int) (sched : ScheduledWorkflow)
    (d : DaemonState) (now : Int) :
    d.processed_schedules ⊆
      (should_execute_cron prev_of sched d now).2.processed_schedules := by
  simp only [should_execute_cron]
  by_cases h1 : cron_key sched (prev_of now) ∈ d.processed_schedules
  · rw [if_pos h1]
  · rw [if_neg h1]
    by_cases h2 : 0 ≤ now - prev_of now ∧ now - prev_of now ≤ d.check_interval
    · rw [if_pos h2]
      exact Finset.subset_insert _ _
    · rw [if_neg h2]

theorem cron_true_records (prev_of : Int → Int) (sched : ScheduledWorkflow)
    (d : DaemonState) (now : Int)
    (h : (should_execute_cron prev_of sched d now).1 = true) :
    cron_key sched (prev_of now) ∈
      (should_execute_cron prev_of sched d now).2.processed_schedules := by
  simp only [should_execute_cron] at h ⊢
  by_cases h1 : cron_key sched (prev_of now) ∈ d.processed_schedules
  · rw [if_pos h1] at h
    exact absurd h (by simp)
  · rw [if_neg h1] at h ⊢
    by_cases h2 : 0 ≤ now - prev_of now ∧ now - prev_of now ≤ d.check_interval
    · rw [if_pos h2]
      exact Finset.mem_insert_self _ _
    · rw [if_neg h2] at h
      exact absurd h (by simp)

theorem cron_false_of_processed (prev_of : Int → Int)
    (sched : ScheduledWorkflow) (d : DaemonState) (now : Int)
    (h : cron_key sched (prev_of now) ∈ d.processed_schedules) :
    (should_execute_cron prev_of sched d now).1 = false := by
  simp only [should_execute_cron]
  rw [if_pos h]

theorem countTrueKey_cons (K : String) (x : Bool × String)
    (l : List (Bool × String)) :
    countTrueKey K (x :: l) =
      (if x.1 && x.2 == K then 1 else 0) + countTrueKey K l := by
  unfold countTrueKey
  rw [List.filter_cons]
  split
  · simp [Nat.add_comm]
  · simp

theorem run_cron_calls_processed (K : String) :
    ∀ (calls : List ((Int → Int) × ScheduledWorkflow × Int)) (d : DaemonState),
      K ∈ d.processed_schedules →
      countTrueKey K (run_cron_calls calls d) = 0 := by
  intro calls
  induction calls with
  | nil => intro d _; rfl
  | cons c rest ih =>
    intro d hK
    obtain ⟨p, sched, n⟩ := c
    rw [show run_cron_calls ((p, sched, n) :: rest) d =
        ((should_execute_cron p sched d n).1, cron_key sched (p n)) ::
          run_cron_calls rest (should_execute_cron p sched d n).2 from rfl]
    rw [countTrueKey_cons]
    rw [ih _ (cron_processed_mono p sched d n hK)]
    by_cases hkey : cron_key sched (p n) = K
    · have hf : (should_execute_cron p sched d n).1 = false :=
        cron_false_of_processed p sched d n (by rw [hkey]; exact hK)
      simp [hf]
    · simp [beq_false_of_ne hkey]

theorem run_cron_calls_at_most_once (K : String) :
    ∀ (calls : List ((Int → Int) × ScheduledWorkflow × Int)) (d : DaemonState),
      countTrueKey K (run_cron_calls calls d) ≤ 1 := by
  intro calls
  induction calls with
  | nil => intro d; simp [run_cron_calls, countTrueKey]
  | cons c rest ih =>
    intro d
    obtain ⟨p, sched, n⟩ := c
    rw [show run_cron_calls ((p, sched, n) :: rest) d =
        ((should_execute_cron p sched d n).1, cron_key sched (p n)) ::
          run_cron_calls rest (should_execute_cron p sched d n).2 from rfl]
    rw [countTrueKey_cons]
    by_cases hb : ((should_execute_cron p sched d n).1 &&
        (cron_key sched (p n) == K)) = true
    · rcases Bool.and_eq_true_iff.mp hb with ⟨hb1, hb2⟩
      have hb2' : cron_key sched (p n) = K := by simpa [beq_iff_eq] using hb2
      have hrec : K ∈ (should_execute_cron p sched d n).2.processed_schedules := by
        rw [← hb2']
        exact cron_true_records p sched d n hb1
      rw [run_cron_calls_processed K rest _ hrec]
      split <;> simp
    · rw [if_neg hb]
      simpa using ih _

/-- C6: `_should_execute_cron` fires at most once per computed cron
occurrence.  A first call whose `prev_time` bucket lies inside
`[now − check_interval, now]` and whose dedup key is fresh records
`schedule_id:prev_time` and returns `True`; any call for the same schedule id
and the same `prev_time` finds the key recorded and returns `False`; and in
every sequence of calls, at most one call returns `True` for a given dedup
key. -/
theorem C6_cron_dedup (prev_of : Int → Int) (sched : ScheduledWorkflow)
    (d : DaemonState) (now : Int)
    (hkey : cron_key sched (prev_of now) ∉ d.processed_schedules)
    (hwin : 0 ≤ now - prev_of now ∧ now - prev_of now ≤ d.check_interval) :
    should_execute_cron prev_of sched d now =
      (true,
        { d with
          processed_schedules :=
            insert (cron_key sched (prev_of now)) d.processed_schedules }) ∧
    (∀ (q : Int → Int) (sched' : ScheduledWorkflow) (d' : DaemonState)
        (now' : Int), sched'.id = sched.id → q now' = prev_of now →
      cron_key sched (prev_of now) ∈ d'.processed_schedules →
      (should_execute_cron q sched' d' now').1 = false) ∧
    (∀ (K : String) (calls : List ((Int → Int) × ScheduledWorkflow × Int))
        (d0 : DaemonState), countTrueKey K (run_cron_calls calls d0) ≤ 1) := by
  refine ⟨?_, ?_, fun K calls d0 => run_cron_calls_at_most_once K calls d0⟩
  · simp [should_execute_cron, hkey, hwin]
  · intro q sched' d' now' hid hprev hmem
    have hk : cron_key sched' (q now') = cron_key sched (prev_of now) := by
      unfold cron_key
      rw [hid, hprev]
    exact cron_false_of_processed q sched' d' now' (by rw [hk]; exact hmem)

/-- Witness for C6: the five-minute cron schedule polled at 330s with
occurrence 300s fires and records `sch:300`; a two-poll trace inside the same
bucket produces at most one `True`. -/
theorem C6_cron_dedup_witness :
    (cron_key cronSched 300 ∉ emptyDaemon.processed_schedules ∧
      (0 : Int) ≤ 330 - 300 ∧ (330 : Int) - 300 ≤ emptyDaemon.check_interval) ∧
    should_execute_cron (fun _ => 300) cronSched emptyDaemon 330 =
      (true,
        { emptyDaemon with
          processed_schedules :=
            insert (cron_key cronSched 300) emptyDaemon.processed_schedules }) ∧
    countTrueKey "sch:300"
      (run_cron_calls
        [((fun _ => 300), cronSched, 330), ((fun _ => 300), cronSched, 340)]
        emptyDaemon) ≤ 1 :=
  ⟨⟨by decide, by decide, by decide⟩,
   (C6_cron_dedup (fun _ => 300) cronSched emptyDaemon 330 (by decide)
      ⟨by decide, by decide⟩).1,
   (C6_cron_dedup (fun _ => 300) cronSched emptyDaemon 330 (by decide)
      ⟨by decide, by decide⟩).2.2 "sch:300"
     [((fun _ => 300), cronSched, 330), ((fun _ => 300), cronSched, 340)]
     emptyDaemon⟩

theorem pymod_two_beq_zero (k : Nat) :
    (pymod (k : Int) 2 == 0) = decide (k % 2 = 0) := by
  have h : pymod (k : Int) 2 = ((k % 2 : Nat) : Int) := (Int.ofNat_fmod k 2).symm
  rw [h]
  by_cases hk : k % 2 = 0
  · simp [hk]
  · have h2 : ((k % 2 : Nat) : Int) ≠ 0 := by omega
    rw [beq_eq_false_iff_ne.mpr h2, decide_eq_false hk]

theorem evaluate_hit_condition_mod2 (n : Nat) :
    evaluate_hit_condition "%2" n = some (decide (n % 2 = 0)) := by
  rw [show evaluate_hit_condition "%2" n = some (pymod (n : Int) 2 == 0) from rfl,
    pymod_two_beq_zero]

/-- C3 counterexample: `varChangeBp` is enabled, its type differs from the
current breakpoint type and its `node_id` differs from the current node, yet
`check_breakpoints` pauses: the `variable_change` clause turns `should_break`
on as soon as the watched variable occurs in `variables`, overriding the
failed type/node/condition conjunction. -/
theorem C3_counterexample :
    varChangeBp.enabled = true ∧
    varChangeBp.breakpoint_type ≠ BreakpointType.node_start ∧
    varChangeBp.node_id = some "A" ∧ ("A" : String) ≠ "B" ∧
    varChangeSession.breakpoints = [("b1", varChangeBp)] ∧
    (check_breakpoints_session 5 "B" BreakpointType.node_start [("x", "1")]
        varChangeSession).2 = some true := by
  decide

/-- C3 amended: an enabled breakpoint matches iff EITHER its type equals the
current breakpoint type, its `node_id` is null or equal to the current node,
and its condition (when truthy) evaluates true — OR it is a
`variable_change` breakpoint whose watched variable occurs in the passed
variables, regardless of the other criteria.  On a session holding one
enabled breakpoint with no hit condition, `check_breakpoints` pauses exactly
when this match predicate holds. -/
theorem C3_breakpoint_match :
    (∀ (bp : Breakpoint) (t : BreakpointType) (node_id : String)
        (vars : List (String × String)),
      should_break bp t node_id vars =
        ((bp.breakpoint_type == t &&
            (bp.node_id.isNone || bp.node_id == some node_id) &&
            (!truthyStr bp.condition ||
              evaluate_condition (bp.condition.getD "") vars)) ||
         (bp.breakpoint_type == BreakpointType.variable_change &&
            truthyStr bp.variable_name &&
            vars.any (fun p => p.1 == bp.variable_name.getD "")))) ∧
    (∀ (now : Int) (node_id : String) (t : BreakpointType)
        (vars : List (String × String)) (sess : DebugSession)
        (bp_id : String) (bp : Breakpoint),
      sess.state ≠ DebuggerState.stopped →
      sess.breakpoints = [(bp_id, bp)] →
      bp.enabled = true → bp.hit_condition = none →
      (check_breakpoints_session now node_id t vars sess).2 =
        some (should_break bp t node_id vars)) := by
  constructor
  · intro bp t node_id vars
    unfold should_break
    cases h1 : (bp.breakpoint_type == t) <;>
      cases h2 : (bp.node_id.isNone || bp.node_id == some node_id) <;>
        cases h3 : truthyStr bp.condition <;>
          cases h4 : evaluate_condition (bp.condition.getD "") vars <;>
            cases h5 : (bp.breakpoint_type == BreakpointType.variable_change &&
                truthyStr bp.variable_name) <;>
              cases h6 : vars.any (fun p => p.1 == bp.variable_name.getD "") <;>
                simp [h1, h2, h3, h4, h5, h6]
  · intro now node_id t vars sess bp_id bp hstate hbps hen hhc
    unfold check_breakpoints_session
    rw [if_neg (by simpa using hstate)]
    have hb :
        ({ sess with
            variables' := dictUpdate sess.variables' vars,
            current_node_id := some node_id } : DebugSession).breakpoints =
          [(bp_id, bp)] := hbps
    rw [hb]
    cases hsb : should_break bp t node_id vars
    · simp [check_breakpoints_loop, hen, hsb]
    · simp [check_breakpoints_loop, hen, hsb, hhc, truthyStr]

/-- Witness for C3: on the concrete one-breakpoint session the pause outcome
coincides with the match predicate. -/
theorem C3_breakpoint_match_witness :
    (varChangeSession.state ≠ DebuggerState.stopped ∧
      varChangeSession.breakpoints = [("b1", varChangeBp)] ∧
      varChangeBp.enabled = true ∧ varChangeBp.hit_condition = none) ∧
    (check_breakpoints_session 5 "B" BreakpointType.node_start [("x", "1")]
        varChangeSession).2 =
      some (should_break varChangeBp BreakpointType.node_start "B"
        [("x", "1")]) :=
  ⟨⟨by decide, by decide, by decide, by decide⟩,
   C3_breakpoint_match.2 5 "B" BreakpointType.node_start [("x", "1")]
     varChangeSession "b1" varChangeBp (by decide) (by decide) (by decide)
     (by decide)⟩

/-- C4: on a matching enabled breakpoint with `hit_condition = "%2"`,
`check_breakpoints` increments `hit_count` on the match and pauses exactly
when the resulting `hit_count` is even; on an odd hit it continues without
pausing and the session state is untouched. -/
theorem C4_hit_count_mod2 (now : Int) (node_id : String) (t : BreakpointType)
    (vars : List (String × String)) (sess : DebugSession) (bp_id : String)
    (bp : Breakpoint)
    (hstate : sess.state ≠ DebuggerState.stopped)
    (hbps : sess.breakpoints = [(bp_id, bp)])
    (hen : bp.enabled = true)
    (hsb : should_break bp t node_id vars = true)
    (hhc : bp.hit_condition = some "%2") :
    (check_breakpoints_session now node_id t vars sess).1.breakpoints =
      [(bp_id, { bp with hit_count := bp.hit_count + 1 })] ∧
    (check_breakpoints_session now node_id t vars sess).2 =
      some (decide ((bp.hit_count + 1) % 2 = 0)) ∧
    ((bp.hit_count + 1) % 2 = 0 →
      (check_breakpoints_session now node_id t vars sess).1.state =
        DebuggerState.paused ∧
      (check_breakpoints_session now node_id t vars sess).1.paused_at =
        some now) ∧
    ((bp.hit_count + 1) % 2 ≠ 0 →
      (check_breakpoints_session now node_id t vars sess).1.state =
        sess.state ∧
      (check_breakpoints_session now node_id t vars sess).1.paused_at =
        sess.paused_at) := by
  unfold check_breakpoints_session
  rw [if_neg (by simpa using hstate)]
  have hb :
      ({ sess with
          variables' := dictUpdate sess.variables' vars,
          current_node_id := some node_id } : DebugSession).breakpoints =
        [(bp_id, bp)] := hbps
  rw [hb]
  by_cases heven : (bp.hit_count + 1) % 2 = 0
  · simp [check_breakpoints_loop, hen, hsb, hhc, truthyStr,
      evaluate_hit_condition_mod2, heven]
  · simp [check_breakpoints_loop, hen, hsb, hhc, truthyStr,
      evaluate_hit_condition_mod2, heven]

/-- Witness for C4: the first matching hit on the concrete `%2` breakpoint
increments the count to 1 (odd) and does not pause. -/
theorem C4_hit_count_mod2_witness :
    (mod2Session.state ≠ DebuggerState.stopped ∧
      mod2Session.breakpoints = [("b1", mod2Bp)] ∧
      mod2Bp.enabled = true ∧
      should_break mod2Bp BreakpointType.node_start "A" [] = true ∧
      mod2Bp.hit_condition = some "%2") ∧
    (check_breakpoints_session 5 "A" BreakpointType.node_start []
        mod2Session).1.breakpoints =
      [("b1", { mod2Bp with hit_count := mod2Bp.hit_count + 1 })] ∧
    (check_breakpoints_session 5 "A" BreakpointType.node_start []
        mod2Session).2 = some (decide ((mod2Bp.hit_count + 1) % 2 = 0)) :=
  ⟨⟨by decide, by decide, by decide, by decide, by decide⟩,
   (C4_hit_count_mod2 5 "A" BreakpointType.node_start [] mod2Session "b1"
      mod2Bp (by decide) (by decide) (by decide) (by decide) (by decide)).1,
   (C4_hit_count_mod2 5 "A" BreakpointType.node_start [] mod2Session "b1"
      mod2Bp (by decide) (by decide) (by decide) (by decide) (by decide)).2.1⟩

/-- C10: executing a node whose type has no entry in the engine's
`node_handlers` map raises `Unknown node type`, wrapped by the same
`except` block as any handler exception: the node lands in `failed_nodes`,
not in `completed_nodes`, no result is stored for it, and the raised error
propagates out of `_execute_single_node`. -/
theorem C10_unknown_node_type (impl : String → HandlerFn) (node_id : String)
    (cfg : NodeConfig) (st : WorkflowExecutionState)
    (hty : cfg.type ∉ node_handler_types) :
    execute_single_node (engineHandlers impl) node_id cfg st =
      (set_node_status (set_node_status st node_id NodeStatus.running) node_id
          NodeStatus.failed,
       some ("Node " ++ node_id ++ " failed: Unknown node type: " ++ cfg.type)) ∧
    node_id ∈
      (execute_single_node (engineHandlers impl) node_id cfg st).1.failed_nodes ∧
    node_id ∉
      (execute_single_node (engineHandlers impl) node_id cfg st).1.completed_nodes ∧
    (execute_single_node (engineHandlers impl) node_id cfg st).1.node_results =
      st.node_results := by
  have hnone : engineHandlers impl cfg.type = none := by
    unfold engineHandlers
    rw [if_neg]
    simpa using hty
  have heq : execute_single_node (engineHandlers impl) node_id cfg st =
      (set_node_status (set_node_status st node_id NodeStatus.running) node_id
          NodeStatus.failed,
       some ("Node " ++ node_id ++ " failed: Unknown node type: " ++ cfg.type)) := by
    unfold execute_single_node
    rw [hnone]
  refine ⟨heq, ?_, ?_, ?_⟩
  · rw [heq]
    exact Finset.mem_insert_self _ _
  · rw [heq]
    exact Finset.not_mem_erase _ _
  · rw [heq]
    rfl

/-- Witness for C10: node type `teleport` is not registered; executing it
fails the node with the `Unknown node type` error. -/
theorem C10_unknown_node_type_witness :
    (("teleport" : String) ∉ node_handler_types) ∧
    execute_single_node okHandlers "a" { type := "teleport" } witnessState =
      (set_node_status (set_node_status witnessState "a" NodeStatus.running)
          "a" NodeStatus.failed,
       some ("Node " ++ "a" ++ " failed: Unknown node type: " ++ "teleport")) :=
  ⟨by decide,
   (C10_unknown_node_type (fun _ => fun _ _ => Except.ok "ok") "a"
      { type := "teleport" } witnessState (by decide)).1⟩

theorem getLast?_cons_of_ne_nil {α : Type} (a : α) {l : List α} (h : l ≠ []) :
    (a :: l).getLast? = l.getLast? := by
  cases l with
  | nil => exact absurd rfl h
  | cons b t => exact List.getLast?_cons_cons

theorem ne_nil_of_getLast?_eq_some {α : Type} {l : List α} {x : α}
    (h : l.getLast? = some x) : l ≠ [] := by
  intro he
  subst he
  simp at h

theorem some_triple_inj {α β γ : Type} {a a' : α} {b b' : β} {c c' : γ}
    (h : (some (a, b, c) : Option (α × β × γ)) = some (a', b', c')) :
    a = a' ∧ b = b' ∧ c = c' := by
  injection h with h1
  injection h1 with h2 h3
  injection h3 with h4 h5
  exact ⟨h2, h4, h5⟩

theorem single_node_error_state (handlers : Handlers) (node_id : String)
    (cfg : NodeConfig) (st st' : WorkflowExecutionState) (e : String)
    (h : execute_single_node handlers node_id cfg st = (st', some e)) :
    node_id ∈ st'.failed_nodes ∧ node_id ∉ st'.completed_nodes := by
  unfold execute_single_node at h
  cases hh : handlers cfg.type with
  | none =>
    simp only [hh] at h
    have hst : set_node_status (set_node_status st node_id NodeStatus.running)
        node_id NodeStatus.failed = st' := by
      injection h
    rw [← hst]
    exact ⟨Finset.mem_insert_self _ _, Finset.not_mem_erase _ _⟩
  | some hf =>
    simp only [hh] at h
    cases hr : hf node_id cfg with
    | ok r =>
      simp only [hr] at h
      injection h with h1 h2
      exact Option.noConfusion h2
    | error e2 =>
      simp only [hr] at h
      have hst : set_node_status (set_node_status st node_id NodeStatus.running)
          node_id NodeStatus.failed = st' := by
        injection h
      rw [← hst]
      exact ⟨Finset.mem_insert_self _ _, Finset.not_mem_erase _ _⟩

theorem chain_error_last_failed (handlers : Handlers)
    (nodes : List (String × NodeConfig)) :
    ∀ (fuel : Nat) (queue : List String) (visited : Finset String)
      (st st' : WorkflowExecutionState) (ex : List String) (e : String),
      execute_node_chain_aux handlers nodes fuel queue visited st =
        some (st', ex, some e) →
      ∃ x, ex.getLast? = some x ∧ x ∈ st'.failed_nodes ∧
        x ∉ st'.completed_nodes := by
  intro fuel
  induction fuel with
  | zero =>
    intro queue visited st st' ex e h
    cases queue with
    | nil => simp [execute_node_chain_aux] at h
    | cons n q => simp [execute_node_chain_aux] at h
  | succ fuel ih =>
    intro queue visited st st' ex e h
    cases queue with
    | nil => simp [execute_node_chain_aux] at h
    | cons n q =>
      rw [execute_node_chain_aux] at h
      by_cases hv : n ∈ visited
      · rw [if_pos hv] at h
        exact ih q visited st st' ex e h
      · rw [if_neg hv] at h
        cases hl : nodes.lookup n with
        | none =>
          simp only [hl] at h
          exact ih q (insert n visited) st st' ex e h
        | some cfg =>
          simp only [hl] at h
          cases hres : execute_single_node handlers n cfg st with
          | mk st1 oe =>
            cases oe with
            | some e1 =>
              simp only [hres] at h
              obtain ⟨h1, h2, h3⟩ := some_triple_inj h
              subst h1
              subst h2
              have := single_node_error_state handlers n cfg st st1 e1 hres
              exact ⟨n, rfl, this.1, this.2⟩
            | none =>
              simp only [hres] at h
              cases hrec : execute_node_chain_aux handlers nodes fuel
                  (q ++ cfg.connections) (insert n visited) st1 with
              | none => simp [hrec] at h
              | some r =>
                obtain ⟨st2, ex2, err2⟩ := r
                simp only [hrec] at h
                obtain ⟨h1, h2, h3⟩ := some_triple_inj h
                subst h1
                subst h3
                obtain ⟨x, hx1, hx2, hx3⟩ :=
                  ih (q ++ cfg.connections) (insert n visited) st1 st2 ex2 e
                    hrec
                refine ⟨x, ?_, hx2, hx3⟩
                rw [← h2, getLast?_cons_of_ne_nil n
                  (ne_nil_of_getLast?_eq_some hx1)]
                exact hx1

theorem workflow_nodes_error_last_failed (handlers : Handlers)
    (nodes : List (String × NodeConfig)) (fuel : Nat) :
    ∀ (starts : List String) (st st' : WorkflowExecutionState)
      (chains : List (List String)) (e : String),
      execute_workflow_nodes_aux handlers nodes fuel starts st =
        some (st', chains, some e) →
      ∃ c x, chains.getLast? = some c ∧ c.getLast? = some x ∧
        x ∈ st'.failed_nodes ∧ x ∉ st'.completed_nodes := by
  intro starts
  induction starts with
  | nil =>
    intro st st' chains e h
    simp [execute_workflow_nodes_aux] at h
  | cons s rest ih =>
    intro st st' chains e h
    rw [execute_workflow_nodes_aux] at h
    cases hc : execute_node_chain handlers nodes fuel s st with
    | none => simp [hc] at h
    | some r =>
      obtain ⟨st1, ex, err⟩ := r
      cases err with
      | some e1 =>
        simp only [hc] at h
        obtain ⟨h1, h2, h3⟩ := some_triple_inj h
        subst h1
        have he : e1 = e := by injection h3
        subst he
        obtain ⟨x, hx1, hx2, hx3⟩ :=
          chain_error_last_failed handlers nodes fuel [s] ∅ st st1 ex e1 hc
        exact ⟨ex, x, by rw [← h2]; rfl, hx1, hx2, hx3⟩
      | none =>
        simp only [hc] at h
        cases hrec : execute_workflow_nodes_aux handlers nodes fuel rest st1 with
        | none => simp [hrec] at h
        | some r2 =>
          obtain ⟨st2, chains2, err2⟩ := r2
          simp only [hrec] at h
          obtain ⟨h1, h2, h3⟩ := some_triple_inj h
          subst h1
          subst h3
          obtain ⟨c, x, hc1, hc2, hc3, hc4⟩ := ih st1 st2 chains2 e hrec
          refine ⟨c, x, ?_, hc2, hc3, hc4⟩
          rw [← h2, getLast?_cons_of_ne_nil ex
            (ne_nil_of_getLast?_eq_some hc1)]
          exact hc1

theorem set_execution_status_fields (now : Int) (st : WorkflowExecutionState)
    (status : WorkflowStatus) :
    (set_execution_status now st status).status = status ∧
    (set_execution_status now st status).failed_nodes = st.failed_nodes ∧
    (set_execution_status now st status).completed_nodes = st.completed_nodes := by
  unfold set_execution_status
  split <;> exact ⟨rfl, rfl, rfl⟩

/-- C8: when the traversal raises (a node handler threw, or an unknown node
type was hit), the whole run aborts: the execution status becomes `failed`,
the raised error is wrapped into the `ProcessIQError` surfaced by
`execute_workflow`, and the failing node is the **last** executed node of the
last chain — it sits in `failed_nodes` and not in `completed_nodes`, and no
node after it executes. -/
theorem C8_handler_exception_aborts (handlers : Handlers)
    (nodes : List (String × NodeConfig)) (fuel : Nat) (now : Int)
    (st : WorkflowExecutionState) (chains : List (List String)) (msg : String)
    (hstart : start_nodes nodes ≠ [])
    (hrun : execute_workflow handlers nodes fuel now =
      some (st, chains, some msg)) :
    st.status = WorkflowStatus.failed ∧
    (∃ e, msg = "Workflow execution failed: " ++ e) ∧
    ∃ c x, chains.getLast? = some c ∧ c.getLast? = some x ∧
      x ∈ st.failed_nodes ∧ x ∉ st.completed_nodes := by
  unfold execute_workflow at hrun
  cases hs : start_nodes nodes with
  | nil => exact absurd hs hstart
  | cons s rest =>
    simp only [hs] at hrun
    cases hn : execute_workflow_nodes_aux handlers nodes fuel (s :: rest)
        (set_execution_status now (initial_execution_state now)
          WorkflowStatus.running) with
    | none => simp [hn] at hrun
    | some r =>
      obtain ⟨st2, chains2, err2⟩ := r
      cases err2 with
      | none =>
        simp only [hn] at hrun
        exact absurd (some_triple_inj hrun).2.2 (by simp)
      | some e =>
        simp only [hn] at hrun
        obtain ⟨h1, h2, h3⟩ := some_triple_inj hrun
        have hmsg : msg = "Workflow execution failed: " ++ e := by
          injection h3.symm
        obtain ⟨c, x, hc1, hc2, hc3, hc4⟩ :=
          workflow_nodes_error_last_failed handlers nodes fuel (s :: rest) _
            st2 chains2 e hn
        obtain ⟨hf1, hf2, hf3⟩ :=
          set_execution_status_fields now st2 WorkflowStatus.failed
        refine ⟨by rw [← h1]; exact hf1, ⟨e, hmsg⟩, c, x, ?_, hc2, ?_, ?_⟩
        · rw [← h2]
          exact hc1
        · rw [← h1, hf2]
          exact hc3
        · rw [← h1, hf3]
          exact hc4

/-- Witness for C8: `boomHandlers` fails the `log` node `a`; the run aborts
with status `failed`, `a` in `failed_nodes` only, and the wrapped error. -/
theorem C8_handler_exception_aborts_witness :
    (start_nodes startLogNodes ≠ [] ∧
      execute_workflow boomHandlers startLogNodes 10 0 =
        some (c8FinalState, [["s", "a"]],
          some "Workflow execution failed: Node a failed: boom")) ∧
    (c8FinalState.status = WorkflowStatus.failed ∧
      (∃ e, ("Workflow execution failed: Node a failed: boom" : String) =
        "Workflow execution failed: " ++ e) ∧
      ∃ c x, ([["s", "a"]] : List (List String)).getLast? = some c ∧
        c.getLast? = some x ∧ x ∈ c8FinalState.failed_nodes ∧
        x ∉ c8FinalState.completed_nodes) :=
  ⟨⟨by decide, by decide⟩,
   C8_handler_exception_aborts boomHandlers startLogNodes 10 0 c8FinalState
     [["s", "a"]] "Workflow execution failed: Node a failed: boom"
     (by decide) (by decide)⟩

theorem chain_executed_nodup (handlers : Handlers)
    (nodes : List (String × NodeConfig)) :
    ∀ (fuel : Nat) (queue : List String) (visited : Finset String)
      (st st' : WorkflowExecutionState) (ex : List String)
      (err : Option String),
      execute_node_chain_aux handlers nodes fuel queue visited st =
        some (st', ex, err) →
      ex.Nodup ∧ ∀ x ∈ ex, x ∉ visited := by
  intro fuel
  induction fuel with
  | zero =>
    intro queue visited st st' ex err h
    cases queue with
    | nil =>
      simp only [execute_node_chain_aux] at h
      obtain ⟨h1, h2, h3⟩ := some_triple_inj h
      rw [← h2]
      exact ⟨List.nodup_nil, by simp⟩
    | cons n q => simp [execute_node_chain_aux] at h
  | succ fuel ih =>
    intro queue visited st st' ex err h
    cases queue with
    | nil =>
      simp only [execute_node_chain_aux] at h
      obtain ⟨h1, h2, h3⟩ := some_triple_inj h
      rw [← h2]
      exact ⟨List.nodup_nil, by simp⟩
    | cons n q =>
      rw [execute_node_chain_aux] at h
      by_cases hv : n ∈ visited
      · rw [if_pos hv] at h
        exact ih q visited st st' ex err h
      · rw [if_neg hv] at h
        cases hl : nodes.lookup n with
        | none =>
          simp only [hl] at h
          obtain ⟨hnd, hnin⟩ := ih q (insert n visited) st st' ex err h
          refine ⟨hnd, fun x hx hviz => ?_⟩
          exact hnin x hx (Finset.mem_insert_of_mem hviz)
        | some cfg =>
          cases hres : execute_single_node handlers n cfg st with
          | mk st1 oe =>
            cases oe with
            | some e1 =>
              simp only [hl, hres] at h
              obtain ⟨h1, h2, h3⟩ := some_triple_inj h
              rw [← h2]
              refine ⟨List.nodup_singleton n, fun x hx => ?_⟩
              rcases List.mem_singleton.mp hx with rfl
              exact hv
            | none =>
              simp only [hl, hres] at h
              cases hrec : execute_node_chain_aux handlers nodes fuel
                  (q ++ cfg.connections) (insert n visited) st1 with
              | none => simp [hrec] at h
              | some r =>
                obtain ⟨st2, ex2, err2⟩ := r
                simp only [hrec] at h
                obtain ⟨h1, h2, h3⟩ := some_triple_inj h
                obtain ⟨hnd2, hnin2⟩ :=
                  ih (q ++ cfg.connections) (insert n visited) st1 st2 ex2
                    err2 hrec
                rw [← h2]
                constructor
                · rw [List.nodup_cons]
                  refine ⟨fun hn => ?_, hnd2⟩
                  exact hnin2 n hn (Finset.mem_insert_self _ _)
                · intro x hx
                  rcases List.mem_cons.mp hx with rfl | hx2
                  · exact hv
                  · intro hviz
                    exact hnin2 x hx2 (Finset.mem_insert_of_mem hviz)

theorem le_foldr_max (a : Nat) : ∀ l : List Nat, a ∈ l → a ≤ l.foldr max 0 := by
  intro l
  induction l with
  | nil => intro h; cases h
  | cons b t ih =>
    intro h
    rcases List.mem_cons.mp h with rfl | h2
    · exact le_max_left _ _
    · exact le_trans (ih h2) (le_max_right _ _)

theorem connections_subset_universe {nodes : List (String × NodeConfig)}
    {n : String} {cfg : NodeConfig} (hl : nodes.lookup n = some cfg) :
    ∀ c ∈ cfg.connections, c ∈ chain_universe nodes := by
  intro c hc
  have hmem : (n, cfg) ∈ nodes := lookup_mem hl
  unfold chain_universe
  apply Finset.mem_union_right
  rw [List.mem_toFinset, List.mem_flatten]
  exact ⟨cfg.connections, List.mem_map_of_mem _ hmem, hc⟩

theorem connections_length_le {nodes : List (String × NodeConfig)}
    {n : String} {cfg : NodeConfig} (hl : nodes.lookup n = some cfg) :
    cfg.connections.length ≤ max_out_degree nodes := by
  have hmem : (n, cfg) ∈ nodes := lookup_mem hl
  unfold max_out_degree
  exact le_foldr_max _ _ (List.mem_map_of_mem _ hmem)

theorem start_nodes_subset_universe (nodes : List (String × NodeConfig)) :
    ∀ s ∈ start_nodes nodes, s ∈ chain_universe nodes := by
  intro s hs
  unfold start_nodes at hs
  rw [List.mem_map] at hs
  obtain ⟨p, hp, rfl⟩ := hs
  have hp2 : p ∈ nodes := List.mem_of_mem_filter hp
  unfold chain_universe
  apply Finset.mem_union_left
  rw [List.mem_toFinset]
  exact List.mem_map_of_mem _ hp2

theorem chain_fuel_sufficient (handlers : Handlers)
    (nodes : List (String × NodeConfig)) :
    ∀ (fuel : Nat) (queue : List String) (visited : Finset String)
      (st : WorkflowExecutionState),
      (∀ n ∈ queue, n ∈ chain_universe nodes) →
      queue.length + (1 + max_out_degree nodes) *
          ((chain_universe nodes) \ visited).card ≤ fuel →
      (execute_node_chain_aux handlers nodes fuel queue visited st).isSome := by
  intro fuel
  induction fuel with
  | zero =>
    intro queue visited st hq hf
    have hq0 : queue.length = 0 := by omega
    rw [List.length_eq_zero] at hq0
    subst hq0
    simp [execute_node_chain_aux]
  | succ fuel ih =>
    intro queue visited st hq hf
    cases queue with
    | nil => simp [execute_node_chain_aux]
    | cons n q =>
      rw [execute_node_chain_aux]
      have hlen : (n :: q).length = q.length + 1 := rfl
      rw [hlen] at hf
      by_cases hv : n ∈ visited
      · rw [if_pos hv]
        apply ih q visited st (fun m hm => hq m (List.mem_cons_of_mem _ hm))
        revert hf
        generalize (1 + max_out_degree nodes) *
          ((chain_universe nodes) \ visited).card = A
        intro hf
        omega
      · rw [if_neg hv]
        have hnU : n ∈ chain_universe nodes := hq n (List.mem_cons_self _ _)
        have hmem : n ∈ (chain_universe nodes) \ visited :=
          Finset.mem_sdiff.mpr ⟨hnU, hv⟩
        have hpos : 0 < ((chain_universe nodes) \ visited).card :=
          Finset.card_pos.mpr ⟨n, hmem⟩
        have herase : (chain_universe nodes) \ insert n visited =
            ((chain_universe nodes) \ visited).erase n := by
          ext x
          simp only [Finset.mem_sdiff, Finset.mem_insert, Finset.mem_erase]
          tauto
        have hcard : ((chain_universe nodes) \ insert n visited).card =
            ((chain_universe nodes) \ visited).card - 1 := by
          rw [herase, Finset.card_erase_of_mem hmem]
        have hsplit : (1 + max_out_degree nodes) *
            ((chain_universe nodes) \ visited).card =
          (1 + max_out_degree nodes) *
              (((chain_universe nodes) \ visited).card - 1) +
            (1 + max_out_degree nodes) := by
          have h1 : ((chain_universe nodes) \ visited).card =
              (((chain_universe nodes) \ visited).card - 1) + 1 := by omega
          calc (1 + max_out_degree nodes) *
                ((chain_universe nodes) \ visited).card
              = (1 + max_out_degree nodes) *
                  ((((chain_universe nodes) \ visited).card - 1) + 1) := by
                rw [← h1]
            _ = _ := by ring
        rw [hsplit] at hf
        cases hl : nodes.lookup n with
        | none =>
          apply ih q (insert n visited) st
            (fun m hm => hq m (List.mem_cons_of_mem _ hm))
          rw [hcard]
          revert hf
          generalize (1 + max_out_degree nodes) *
            (((chain_universe nodes) \ visited).card - 1) = A
          intro hf
          omega
        | some cfg =>
          dsimp only
          cases hres : execute_single_node handlers n cfg st with
          | mk st1 oe =>
            cases oe with
            | some e1 => simp
            | none =>
              dsimp only
              have hsub : ∀ m ∈ q ++ cfg.connections,
                  m ∈ chain_universe nodes := by
                intro m hm
                rcases List.mem_append.mp hm with hm1 | hm2
                · exact hq m (List.mem_cons_of_mem _ hm1)
                · exact connections_subset_universe hl m hm2
              have hL : cfg.connections.length ≤ max_out_degree nodes :=
                connections_length_le hl
              have hrec : (execute_node_chain_aux handlers nodes fuel
                  (q ++ cfg.connections) (insert n visited) st1).isSome := by
                apply ih _ _ _ hsub
                rw [List.length_append, hcard]
                revert hf hL
                generalize (1 + max_out_degree nodes) *
                  (((chain_universe nodes) \ visited).card - 1) = A
                intro hf hL
                omega
              obtain ⟨r, hr⟩ := Option.isSome_iff_exists.mp hrec
              obtain ⟨st2, ex2, err2⟩ := r
              rw [hr]
              simp

theorem workflow_nodes_some_nodup (handlers : Handlers)
    (nodes : List (String × NodeConfig)) (fuel : Nat)
    (hfuel : 1 + (1 + max_out_degree nodes) *
      (chain_universe nodes).card ≤ fuel) :
    ∀ (starts : List String) (st : WorkflowExecutionState),
      (∀ s ∈ starts, s ∈ chain_universe nodes) →
      ∃ r, execute_workflow_nodes_aux handlers nodes fuel starts st = some r ∧
        ∀ c ∈ r.2.1, c.Nodup := by
  intro starts
  induction starts with
  | nil =>
    intro st _
    exact ⟨(st, [], none), rfl, by simp⟩
  | cons s rest ih =>
    intro st hs
    have hchain : (execute_node_chain_aux handlers nodes fuel [s] ∅ st).isSome := by
      apply chain_fuel_sufficient
      · intro m hm
        have hm' : m = s := List.mem_singleton.mp hm
        rw [hm']
        exact hs s (List.mem_cons_self _ _)
      · simpa using hfuel
    obtain ⟨r0, hr⟩ := Option.isSome_iff_exists.mp hchain
    obtain ⟨st1, ex, err⟩ := r0
    have hnodup : ex.Nodup :=
      (chain_executed_nodup handlers nodes fuel [s] ∅ st st1 ex err hr).1
    cases err with
    | some e =>
      refine ⟨(st1, [ex], some e), ?_, ?_⟩
      · rw [execute_workflow_nodes_aux]
        unfold execute_node_chain
        rw [hr]
      · intro c hc
        rcases List.mem_singleton.mp hc with rfl
        exact hnodup
    | none =>
      obtain ⟨r2, hr2, hnd2⟩ := ih st1
        (fun m hm => hs m (List.mem_cons_of_mem _ hm))
      obtain ⟨st2, chains2, err2⟩ := r2
      refine ⟨(st2, ex :: chains2, err2), ?_, ?_⟩
      · rw [execute_workflow_nodes_aux]
        unfold execute_node_chain
        rw [hr]
        dsimp only
        rw [hr2]
      · intro c hc
        rcases List.mem_cons.mp hc with rfl | hc2
        · exact hnodup
        · exact hnd2 c hc2

/-- C1 counterexample: with two start nodes both connected to `c`, a single
`execute_workflow` call executes `c` twice (once per start chain, since the
`visited` set is fresh per chain), falsifying "each node id executes at most
once per execution". -/
theorem C1_counterexample :
    ((execute_workflow okHandlers twoStartNodes 10 0).map (fun r => r.2.1)) =
      some [["s1", "c"], ["s2", "c"]] ∧
    (start_nodes twoStartNodes).length = 2 ∧
    (([["s1", "c"], ["s2", "c"]] : List (List String)).flatten).count "c" = 2 := by
  decide

/-- C1 amended: for every workflow and handler behaviour the traversal
terminates (some fuel makes the embedded loop finish, cyclic connection
graphs included), and **within each start-node chain** each node id executes
at most once (the per-chain `visited` set dedupes); a node reachable from
several start nodes re-executes once per chain. -/
theorem C1_chain_at_most_once_and_terminates :
    ∀ (handlers : Handlers) (nodes : List (String × NodeConfig)) (now : Int),
      ∃ (fuel : Nat) (st : WorkflowExecutionState)
        (chains : List (List String)) (err : Option String),
        execute_workflow handlers nodes fuel now = some (st, chains, err) ∧
        ∀ c ∈ chains, c.Nodup := by
  intro handlers nodes now
  refine ⟨1 + (1 + max_out_degree nodes) * (chain_universe nodes).card,
    ?_⟩
  cases hs : start_nodes nodes with
  | nil =>
    refine ⟨set_execution_status now
        (set_execution_status now (initial_execution_state now)
          WorkflowStatus.running) WorkflowStatus.failed, [],
      some "Workflow execution failed: No start nodes found in workflow",
      ?_, by simp⟩
    unfold execute_workflow
    rw [hs]
  | cons s rest =>
    have hsub : ∀ x ∈ s :: rest, x ∈ chain_universe nodes := by
      intro x hx
      apply start_nodes_subset_universe
      rw [hs]
      exact hx
    obtain ⟨r, hr, hnd⟩ :=
      workflow_nodes_some_nodup handlers nodes _ le_rfl (s :: rest)
        (set_execution_status now (initial_execution_state now)
          WorkflowStatus.running) hsub
    obtain ⟨st2, chains2, err2⟩ := r
    cases err2 with
    | none =>
      refine ⟨set_execution_status now st2 WorkflowStatus.completed, chains2,
        none, ?_, hnd⟩
      unfold execute_workflow
      rw [hs]
      simp only [hr]
    | some e =>
      refine ⟨set_execution_status now st2 WorkflowStatus.failed, chains2,
        some ("Workflow execution failed: " ++ e), ?_, hnd⟩
      unfold execute_workflow
      rw [hs]
      simp only [hr]

end ProcessIQ
